import Mathlib

/-!
# Verification of the user-registration form (src/main.py)

Shallow embedding of the registration application: a Streamlit form backed
by a hosted table. Strings are modelled as `List Char`. The remote store is
modelled as a list of records together with explicit failure flags for each
remote call (the `try/except` blocks of the source catch any remote failure).

Python regex notes, relevant to `validate_email` / `validate_phone`:
`re.match(p, s)` anchors at the start only; the patterns end in `$`, and in
Python `$` matches at the end of the string **or just before a newline at the
end of the string**.  So a pattern `^core$` accepts `s` exactly when `core`
matches all of `s`, or `s` ends in one `'\n'` and `core` matches all of
`s` with that final newline removed.  The embeddings below reproduce this.
-/

/-- Strings of the source, as lists of characters. -/
abbrev Str := List Char

/-! ## Validators (src/main.py lines 21–38) -/

/-- The class `[a-zA-Z0-9._%+-]` of the email pattern's local part. -/
def isLocalChar (c : Char) : Bool :=
  c.isAlphanum || c == '.' || c == '_' || c == '%' || c == '+' || c == '-'

/-- The class `[a-zA-Z0-9.-]` of the email pattern's domain part. -/
def isDomainChar (c : Char) : Bool :=
  c.isAlphanum || c == '.' || c == '-'

/-- The domain-and-TLD part of the email pattern, `[a-zA-Z0-9.-]+\.[a-zA-Z]{2,}`,
applied to everything after the `@`.  Because the TLD class `[a-zA-Z]` excludes
`'.'`, a match exists exactly when the *last* dot splits the text into a
non-empty domain part and a TLD of 2 or more letters; the matcher locates that
last dot by scanning the reversed list. -/
def emailDomain (r : Str) : Bool :=
  let t := (r.reverse.takeWhile (fun c => !(c == '.'))).reverse
  match r.reverse.dropWhile (fun c => !(c == '.')) with
  | [] => false
  | _ :: drev =>
    let d := drev.reverse
    !d.isEmpty && d.all isDomainChar && decide (2 ≤ t.length) && t.all Char.isAlpha

/-- The email pattern `^[a-zA-Z0-9._%+-]+@[a-zA-Z0-9.-]+\.[a-zA-Z]{2,}` without
the `$` anchoring: it must consume the whole input.  Since `'@'` is not a
local-part character, the local part of any match is exactly the maximal
local-character prefix. -/
def emailCore (s : Str) : Bool :=
  match s.dropWhile isLocalChar with
  | c :: r => c == '@' && !(s.takeWhile isLocalChar).isEmpty && emailDomain r
  | [] => false

/-- `validate_email` (src/main.py line 21): `re.match` of the pattern
`^[a-zA-Z0-9._%+-]+@[a-zA-Z0-9.-]+\.[a-zA-Z]{2,}$` — the core pattern matched
against the whole input, or against the input minus a single trailing newline
(Python `$` semantics, see the header). -/
def validate_email (s : Str) : Bool :=
  emailCore s || (s.getLast? == some '\n' && emailCore s.dropLast)

/-- `\d{9,15}` of the phone pattern: 9 to 15 digits, consuming everything. -/
def phoneDigits (r : Str) : Bool :=
  r.all Char.isDigit && decide (9 ≤ r.length) && decide (r.length ≤ 15)

/-- `1?\d{9,15}` of the phone pattern: the optional `1` either absent or taken. -/
def phoneRest (r : Str) : Bool :=
  phoneDigits r ||
    (match r with
     | c :: ds => c == '1' && phoneDigits ds
     | [] => false)

/-- `\+?1?\d{9,15}` of the phone pattern: the optional `+` absent or taken. -/
def phoneCore (s : Str) : Bool :=
  phoneRest s ||
    (match s with
     | c :: r => c == '+' && phoneRest r
     | [] => false)

/-- `validate_phone` (src/main.py line 25): `re.match` of `^\+?1?\d{9,15}$`,
with the same `$`-before-trailing-newline semantics as `validate_email`. -/
def validate_phone (s : Str) : Bool :=
  phoneCore s || (s.getLast? == some '\n' && phoneCore s.dropLast)

/-- `validate_password` (src/main.py lines 29–38): the checks run in the
source's order and return at the first unmet rule.  `re.search(r'[A-Z]', p)`
searches for one character in the ASCII range `A`–`Z` (`Char.isUpper`), and
likewise `[a-z]` / `[0-9]`. -/
def validate_password (p : Str) : Bool × Str :=
  if p.length < 8 then
    (false, "Password must be at least 8 characters long".toList)
  else if !(p.any Char.isUpper) then
    (false, "Password must contain at least one uppercase letter".toList)
  else if !(p.any Char.isLower) then
    (false, "Password must contain at least one lowercase letter".toList)
  else if !(p.any Char.isDigit) then
    (false, "Password must contain at least one number".toList)
  else
    (true, "Password is valid".toList)

/-! ## Declarative shapes the spec describes -/

/-- The `local@domain.tld` shape of the spec: one or more local-part
characters, `@`, one or more domain characters, a dot, then a TLD of two or
more letters. -/
def emailShape (s : Str) : Prop :=
  ∃ l d t : Str,
    s = l ++ '@' :: (d ++ '.' :: t) ∧
    l ≠ [] ∧ (∀ c ∈ l, isLocalChar c = true) ∧
    d ≠ [] ∧ (∀ c ∈ d, isDomainChar c = true) ∧
    2 ≤ t.length ∧ (∀ c ∈ t, c.isAlpha = true)

/-- The phone shape of the spec: an optional leading `+`, an optional literal
`1`, then 9 to 15 digits. -/
def phoneShape (s : Str) : Prop :=
  ∃ pre one ds : Str,
    s = pre ++ one ++ ds ∧
    (pre = [] ∨ pre = ['+']) ∧
    (one = [] ∨ one = ['1']) ∧
    (∀ c ∈ ds, c.isDigit = true) ∧
    9 ≤ ds.length ∧ ds.length ≤ 15

/-! ## Data model (the `user_data` dict, src/main.py lines 166–181) -/

/-- The record inserted into the `users` table.  The fields are exactly the
keys of the `user_data` dict, in its order; `gender` is `Option Str` because
the source stores `None` when the selectbox was left at `"Select"`. -/
structure UserRecord where
  first_name : Str
  last_name : Str
  username : Str
  email : Str
  phone : Str
  password : Str
  date_of_birth : Str
  gender : Option Str
  country : Str
  city : Str
  address : Str
  occupation : Str
  newsletter_subscribed : Bool
  created_at : Str
deriving DecidableEq

/-- The raw field values the form hands to the submitted-branch of `main`
(src/main.py lines 80–122): text inputs as strings (`date_of_birth` already
via `str(...)`), the gender selectbox value as the chosen string, and the two
checkboxes as booleans. -/
structure FormInput where
  first_name : Str
  last_name : Str
  username : Str
  email : Str
  phone : Str
  password : Str
  confirm_password : Str
  date_of_birth : Str
  gender : Str
  country : Str
  city : Str
  occupation : Str
  address : Str
  terms_accepted : Bool
  newsletter : Bool
deriving DecidableEq

/-! ## Remote layer (src/main.py lines 41–60)

The remote store is a list of `UserRecord`s.  Each remote round-trip of the
source sits in its own `try/except`; whether that call raises is modelled by
an explicit failure flag (`usernameCheckFails`, `emailCheckFails`,
`insertFails`), and `now` models what `datetime.now().isoformat()` returns at
submission time. -/

/-- The environment of one submission: the remote table's contents, one
failure flag per remote call of the source, the text of the insert failure,
and the client clock. -/
structure AppEnv where
  store : List UserRecord
  usernameCheckFails : Bool
  emailCheckFails : Bool
  insertFails : Bool
  insertError : Str
  now : Str

/-- `check_username_exists` (src/main.py lines 55–60): select the rows whose
`username` equals the argument and test `len(response.data) > 0`; any raised
remote failure is caught and turned into `False` (fail-open). -/
def check_username_exists (store : List UserRecord) (fails : Bool) (username : Str) : Bool :=
  if fails then false
  else decide (0 < (store.filter (fun r => r.username == username)).length)

/-- `check_email_exists` (src/main.py lines 48–53): same contract, keyed on
`email`. -/
def check_email_exists (store : List UserRecord) (fails : Bool) (email : Str) : Bool :=
  if fails then false
  else decide (0 < (store.filter (fun r => r.email == email)).length)

/-- `register_user` (src/main.py lines 41–46): one insert attempt; a raised
remote failure is caught and becomes `(False, "Error: " + str(e))`, success
becomes `(True, "Registration successful!")` with the row appended.  The pair
is the function's return value, the list the store after the call. -/
def register_user (env : AppEnv) (user_data : UserRecord) : (Bool × Str) × List UserRecord :=
  if env.insertFails then
    ((false, "Error: ".toList ++ env.insertError), env.store)
  else
    ((true, "Registration successful!".toList), env.store ++ [user_data])

/-! ## The submitted-branch of `main` (src/main.py lines 127–191) -/

/-- Line 131: `all([first_name, last_name, username, email, phone, password,
confirm_password])` — Python truthiness of a string is non-emptiness. -/
def requiredFilled (inp : FormInput) : Bool :=
  !inp.first_name.isEmpty && !inp.last_name.isEmpty && !inp.username.isEmpty &&
    !inp.email.isEmpty && !inp.phone.isEmpty && !inp.password.isEmpty &&
    !inp.confirm_password.isEmpty

/-- The local validation errors of lines 129–148, in the source's append
order: required fields, email format, phone format, password strength (the
reason prefixed with the warning sign, line 142), password confirmation,
terms acceptance. -/
def localErrors (inp : FormInput) : List Str :=
  (if !requiredFilled inp then ["⚠️ Please fill in all required fields marked with *".toList] else []) ++
  (if !validate_email inp.email then ["⚠️ Invalid email format".toList] else []) ++
  (if !validate_phone inp.phone then ["⚠️ Invalid phone number format".toList] else []) ++
  (if !(validate_password inp.password).1 then
    ["⚠️ ".toList ++ (validate_password inp.password).2] else []) ++
  (if inp.password ≠ inp.confirm_password then ["⚠️ Passwords do not match".toList] else []) ++
  (if !inp.terms_accepted then ["⚠️ You must accept the Terms and Conditions".toList] else [])

/-- Lines 150–151: a gender left at the placeholder `"Select"` becomes `None`;
any other selectbox value is kept verbatim. -/
def submittedGender (inp : FormInput) : Option Str :=
  if inp.gender = "Select".toList then none else some inp.gender

/-- The `user_data` dict of lines 166–181: every field copied from the form,
`gender` after the `"Select"` fix-up, and `created_at` set to the client
clock's `datetime.now().isoformat()`. -/
def userData (inp : FormInput) (now : Str) : UserRecord where
  first_name := inp.first_name
  last_name := inp.last_name
  username := inp.username
  email := inp.email
  phone := inp.phone
  password := inp.password
  date_of_birth := inp.date_of_birth
  gender := submittedGender inp
  country := inp.country
  city := inp.city
  address := inp.address
  occupation := inp.occupation
  newsletter_subscribed := inp.newsletter
  created_at := now

/-- One remote round-trip the submitted-branch can make, in the order the
source makes them: the two existence selects, then possibly the insert. -/
inductive RemoteCall
  | selectUsername (username : Str)
  | selectEmail (email : Str)
  | insert (record : UserRecord)
deriving DecidableEq

/-- What one submission produces: the error messages displayed, the remote
calls made in order, the `(success, message)` reply of `register_user` when it
was reached, and the store after the submission. -/
structure SubmitResult where
  errors : List Str
  calls : List RemoteCall
  reply : Option (Bool × Str)
  store : List UserRecord

/-- The full error list of one submission: the source appends the local
errors (lines 129–148), then **unconditionally** calls
`check_username_exists` and `check_email_exists` (lines 154, 157) and appends
their conflict messages. -/
def submitErrors (inp : FormInput) (env : AppEnv) : List Str :=
  localErrors inp ++
    (if check_username_exists env.store env.usernameCheckFails inp.username then
      ["⚠️ Username already exists".toList] else []) ++
    (if check_email_exists env.store env.emailCheckFails inp.email then
      ["⚠️ Email already registered".toList] else [])

/-- The submitted-branch of `main` (src/main.py lines 127–191), purified.
After the (unconditional) error collection of `submitErrors`, line 161
branches: with a non-empty error list it displays the errors (no insert,
store untouched); with an empty one it builds `user_data` and calls
`register_user`. -/
def submit (inp : FormInput) (env : AppEnv) : SubmitResult :=
  let errors := submitErrors inp env
  let calls := [RemoteCall.selectUsername inp.username, RemoteCall.selectEmail inp.email]
  if errors.isEmpty then
    let u := userData inp env.now
    let r := register_user env u
    ⟨errors, calls ++ [RemoteCall.insert u], some r.1, r.2⟩
  else
    ⟨errors, calls, none, env.store⟩

/-! ## The "View Users" tab (src/main.py lines 193–207) -/

/-- One row of the listing projection `id, first_name, last_name, username,
email, created_at` (line 197); `id` is assigned by the remote store, so the
listing model carries it alongside the record. -/
structure ListedUser where
  id : Nat
  first_name : Str
  last_name : Str
  username : Str
  email : Str
  created_at : Str
deriving DecidableEq

/-- The projection the listing select returns: one `ListedUser` per row of the
table, the store-assigned id paired with the record's projected fields. -/
def usersProjection (table : List (Nat × UserRecord)) : List ListedUser :=
  table.map fun p =>
    ⟨p.1, p.2.first_name, p.2.last_name, p.2.username, p.2.email, p.2.created_at⟩

/-- The listing select of line 197: on remote failure the raised error,
otherwise the projection of every row. -/
def list_users (table : List (Nat × UserRecord)) (failure : Option Str) :
    Except Str (List ListedUser) :=
  match failure with
  | some e => Except.error e
  | none => Except.ok (usersProjection table)

/-- What the "View Users" tab renders. -/
inductive ViewOutput
  | table (rows : List ListedUser) (total : Nat)
  | noUsers
  | fetchError (msg : Str)
deriving DecidableEq

/-- The tab2 body (src/main.py lines 196–207): a raised fetch error is caught
and rendered as `"Error fetching users: " + str(e)`; an empty `response.data`
is falsy, rendering the `"No users registered yet."` info box; otherwise the
dataframe plus the `len(df)` count. -/
def view_users (table : List (Nat × UserRecord)) (failure : Option Str) : ViewOutput :=
  match list_users table failure with
  | Except.error e => ViewOutput.fetchError ("Error fetching users: ".toList ++ e)
  | Except.ok rows => if rows.isEmpty then ViewOutput.noUsers else ViewOutput.table rows rows.length

/-! ## Concrete instances used by the counterexamples and witnesses -/

/-- A form input every local check accepts: required fields filled, well-formed
email and phone, a strong password matching its confirmation, terms accepted. -/
def inpOK : FormInput where
  first_name := "John".toList
  last_name := "Doe".toList
  username := "johndoe".toList
  email := "john@example.com".toList
  phone := "+12345678901".toList
  password := "Abcdefg1".toList
  confirm_password := "Abcdefg1".toList
  date_of_birth := "2000-01-01".toList
  gender := "Male".toList
  country := "US".toList
  city := "NYC".toList
  occupation := "Engineer".toList
  address := "1 Main St".toList
  terms_accepted := true
  newsletter := false

/-- `inpOK` with the required first-name field left empty: a local
validation error. -/
def inpBad : FormInput := { inpOK with first_name := [] }

/-- `inpOK` submitted under the username `"bob"`. -/
def inpBob : FormInput := { inpOK with username := "bob".toList }

/-- `inpOK` with the gender selectbox set to `"Prefer not to say"`. -/
def inpPrefer : FormInput := { inpOK with gender := "Prefer not to say".toList }

/-- An empty store with every remote call healthy. -/
def envOK : AppEnv where
  store := []
  usernameCheckFails := false
  emailCheckFails := false
  insertFails := false
  insertError := []
  now := "T0".toList

/-- `envOK` at client clock `"T1"`. -/
def envT1 : AppEnv := { envOK with now := "T1".toList }

/-- `envOK` at client clock `"T2"`. -/
def envT2 : AppEnv := { envOK with now := "T2".toList }

/-- A record already registered under the username `"bob"`. -/
def recBob : UserRecord where
  first_name := "Bob".toList
  last_name := "Smith".toList
  username := "bob".toList
  email := "bob@old.example".toList
  phone := "+12345678902".toList
  password := "Abcdefg2".toList
  date_of_birth := "1990-01-01".toList
  gender := none
  country := []
  city := []
  address := []
  occupation := []
  newsletter_subscribed := false
  created_at := "Told".toList

/-- A healthy environment whose store already holds `recBob`. -/
def envBob : AppEnv := { envOK with store := [recBob] }

/-- `envBob` with the username existence select raising (and so failing
open). -/
def envBobCheckDown : AppEnv := { envBob with usernameCheckFails := true }

/-! ## List lemmas -/

/-- `takeWhile` of a list split at the first element failing `p` returns the
prefix before it. -/
theorem takeWhile_append_middle {α : Type} (p : α → Bool) (l r : List α) (a : α)
    (hl : ∀ c ∈ l, p c = true) (ha : p a = false) :
    (l ++ a :: r).takeWhile p = l := by
  induction l with
  | nil => simp [List.takeWhile_cons, ha]
  | cons x xs ih =>
    have hx : p x = true := hl x (by simp)
    simp [List.takeWhile_cons, hx, ih (fun c hc => hl c (by simp [hc]))]

/-- `dropWhile` of a list split at the first element failing `p` returns that
element on. -/
theorem dropWhile_append_middle {α : Type} (p : α → Bool) (l r : List α) (a : α)
    (hl : ∀ c ∈ l, p c = true) (ha : p a = false) :
    (l ++ a :: r).dropWhile p = a :: r := by
  induction l with
  | nil => simp [List.dropWhile_cons, ha]
  | cons x xs ih =>
    have hx : p x = true := hl x (by simp)
    simp [List.dropWhile_cons, hx, ih (fun c hc => hl c (by simp [hc]))]

/-- The head of a non-empty `dropWhile` fails the predicate. -/
theorem dropWhile_head_false {α : Type} (p : α → Bool) (l : List α) (a : α) (r : List α)
    (h : l.dropWhile p = a :: r) : p a = false := by
  induction l with
  | nil => simp at h
  | cons x xs ih =>
    by_cases hx : p x = true
    · exact ih (by simpa [List.dropWhile_cons, hx] using h)
    · have hx' : p x = false := by simpa using hx
      simp [List.dropWhile_cons, hx'] at h
      obtain ⟨h1, _⟩ := h
      subst h1; exact hx'

/-- The last element of a list with a non-empty suffix is the suffix's. -/
theorem getLast?_append_of_getLast? {α : Type} (l₁ l₂ : List α) (c : α)
    (h : l₂.getLast? = some c) : (l₁ ++ l₂).getLast? = some c := by
  rw [List.getLast?_append, h]; rfl

/-! ## The regex matchers against the declarative shapes -/

/-- `emailDomain` unfolded to a form without `let`, for the proofs below. -/
theorem emailDomain_eq (r : Str) :
    emailDomain r =
      match r.reverse.dropWhile (fun c => !(c == '.')) with
      | [] => false
      | _ :: drev =>
        !drev.reverse.isEmpty && drev.reverse.all isDomainChar &&
          decide (2 ≤ (r.reverse.takeWhile (fun c => !(c == '.'))).reverse.length) &&
          (r.reverse.takeWhile (fun c => !(c == '.'))).reverse.all Char.isAlpha := rfl

/-- The domain matcher accepts exactly the splits `domain ++ "." ++ tld` with a
non-empty domain over its class and an alphabetic TLD of length at least 2. -/
theorem emailDomain_iff (r : Str) : emailDomain r = true ↔
    (∃ d t : Str, r = d ++ '.' :: t ∧ d ≠ [] ∧ (∀ c ∈ d, isDomainChar c = true) ∧
      2 ≤ t.length ∧ (∀ c ∈ t, c.isAlpha = true)) := by
  rw [emailDomain_eq]
  constructor
  · intro h
    cases hdw : r.reverse.dropWhile (fun c => !(c == '.')) with
    | nil => rw [hdw] at h; simp at h
    | cons c0 drev =>
      rw [hdw] at h
      simp only [Bool.and_eq_true, Bool.not_eq_true', List.isEmpty_eq_false,
        decide_eq_true_eq, List.all_eq_true] at h
      obtain ⟨⟨⟨hdne, hdall⟩, htlen⟩, htall⟩ := h
      have hc0 : (fun c => !(c == '.')) c0 = false :=
        dropWhile_head_false (fun c => !(c == '.')) r.reverse c0 drev hdw
      have hc0' : c0 = '.' := by simpa using hc0
      subst hc0'
      refine ⟨drev.reverse, (r.reverse.takeWhile (fun c => !(c == '.'))).reverse,
        ?_, hdne, hdall, htlen, htall⟩
      have hsplit : r.reverse.takeWhile (fun c => !(c == '.')) ++ '.' :: drev = r.reverse := by
        rw [← hdw]; exact List.takeWhile_append_dropWhile _ _
      calc r = r.reverse.reverse := (List.reverse_reverse r).symm
        _ = (r.reverse.takeWhile (fun c => !(c == '.')) ++ '.' :: drev).reverse := by rw [hsplit]
        _ = drev.reverse ++ '.' :: (r.reverse.takeWhile (fun c => !(c == '.'))).reverse := by
              simp [List.reverse_append]
  · rintro ⟨d, t, rfl, hdne, hdall, htlen, htall⟩
    have htall' : ∀ c ∈ t.reverse, (fun c => !(c == '.')) c = true := by
      intro c hc
      have hca : c.isAlpha = true := htall c (List.mem_reverse.mp hc)
      have hne : c ≠ '.' := by
        intro h
        subst h
        simp [Char.isAlpha, Char.isUpper, Char.isLower] at hca
      simpa using hne
    have hdot : (fun c => !(c == '.')) '.' = false := by simp
    have hrev : (d ++ '.' :: t).reverse = t.reverse ++ '.' :: d.reverse := by
      simp [List.reverse_append]
    rw [hrev, takeWhile_append_middle _ _ _ _ htall' hdot,
      dropWhile_append_middle _ _ _ _ htall' hdot]
    simp only [List.reverse_reverse, Bool.and_eq_true, Bool.not_eq_true',
      List.isEmpty_eq_false, decide_eq_true_eq, List.all_eq_true]
    exact ⟨⟨⟨hdne, hdall⟩, htlen⟩, htall⟩

/-- The core email matcher accepts exactly the strings of `emailShape`. -/
theorem emailCore_iff (s : Str) : emailCore s = true ↔ emailShape s := by
  unfold emailCore
  constructor
  · intro h
    cases hdrop : s.dropWhile isLocalChar with
    | nil => rw [hdrop] at h; simp at h
    | cons c r =>
      rw [hdrop] at h
      simp only [Bool.and_eq_true, beq_iff_eq, Bool.not_eq_true', List.isEmpty_eq_false] at h
      obtain ⟨⟨hc, hne⟩, hdom⟩ := h
      subst hc
      obtain ⟨d, t, hr, hdne, hdall, htlen, htall⟩ := (emailDomain_iff r).mp hdom
      subst hr
      refine ⟨s.takeWhile isLocalChar, d, t, ?_, hne, ?_, hdne, hdall, htlen, htall⟩
      · conv_lhs => rw [← List.takeWhile_append_dropWhile isLocalChar s, hdrop]
      · intro c hc; exact List.mem_takeWhile_imp hc
  · rintro ⟨l, d, t, rfl, hlne, hlall, hdne, hdall, htlen, htall⟩
    have hat : isLocalChar '@' = false := by decide
    rw [takeWhile_append_middle _ _ _ _ hlall hat, dropWhile_append_middle _ _ _ _ hlall hat]
    simp only [Bool.and_eq_true, beq_iff_eq, Bool.not_eq_true', List.isEmpty_eq_false]
    exact ⟨⟨trivial, hlne⟩, (emailDomain_iff _).mpr ⟨d, t, rfl, hdne, hdall, htlen, htall⟩⟩

/-- Python's `$` at the end of a `re.match` pattern: the anchored core matches
the whole string, or the whole string minus one trailing newline.  Stated for
any core matcher with its shape. -/
theorem match_dollar_iff (core : Str → Bool) (shape : Str → Prop)
    (hcore : ∀ s, core s = true ↔ shape s) (s : Str) :
    (core s || (s.getLast? == some '\n' && core s.dropLast)) = true ↔
      (shape s ∨ ∃ s', s = s' ++ ['\n'] ∧ shape s') := by
  simp only [Bool.or_eq_true, Bool.and_eq_true, beq_iff_eq, hcore]
  constructor
  · rintro (h | ⟨hlast, hdrop⟩)
    · exact Or.inl h
    · obtain ⟨ys, hys⟩ := List.getLast?_eq_some_iff.mp hlast
      right
      refine ⟨ys, hys, ?_⟩
      rw [hys, List.dropLast_concat] at hdrop
      exact hdrop
  · rintro (h | ⟨s', rfl, h⟩)
    · exact Or.inl h
    · right
      exact ⟨List.getLast?_concat _, by simpa [List.dropLast_concat] using h⟩

/-- `phoneDigits` is "all digits, 9 to 15 of them". -/
theorem phoneDigits_iff (r : Str) : phoneDigits r = true ↔
    ((∀ c ∈ r, c.isDigit = true) ∧ 9 ≤ r.length ∧ r.length ≤ 15) := by
  simp [phoneDigits, List.all_eq_true, and_assoc]

/-- `phoneRest` is "an optional literal 1, then 9 to 15 digits". -/
theorem phoneRest_iff (r : Str) : phoneRest r = true ↔
    (∃ one ds : Str, r = one ++ ds ∧ (one = [] ∨ one = ['1']) ∧
      (∀ c ∈ ds, c.isDigit = true) ∧ 9 ≤ ds.length ∧ ds.length ≤ 15) := by
  unfold phoneRest
  constructor
  · intro h
    rw [Bool.or_eq_true] at h
    rcases h with h1 | h2
    · obtain ⟨hds, h9, h15⟩ := (phoneDigits_iff r).mp h1
      exact ⟨[], r, by simp, Or.inl rfl, hds, h9, h15⟩
    · cases r with
      | nil => simp at h2
      | cons c ds =>
        simp only [Bool.and_eq_true, beq_iff_eq] at h2
        obtain ⟨hc, hds⟩ := h2
        subst hc
        obtain ⟨hall, h9, h15⟩ := (phoneDigits_iff ds).mp hds
        exact ⟨['1'], ds, rfl, Or.inr rfl, hall, h9, h15⟩
  · rintro ⟨one, ds, rfl, hone | hone, hds, h9, h15⟩ <;> subst hone <;> rw [Bool.or_eq_true]
    · exact Or.inl ((phoneDigits_iff _).mpr (by simpa using ⟨hds, h9, h15⟩))
    · refine Or.inr ?_
      simp only [List.singleton_append, Bool.and_eq_true, beq_iff_eq]
      exact ⟨trivial, (phoneDigits_iff ds).mpr ⟨hds, h9, h15⟩⟩

/-- The core phone matcher accepts exactly the strings of `phoneShape`. -/
theorem phoneCore_iff (s : Str) : phoneCore s = true ↔ phoneShape s := by
  unfold phoneCore phoneShape
  constructor
  · intro h
    rw [Bool.or_eq_true] at h
    rcases h with h1 | h2
    · obtain ⟨one, ds, hr, hone, hds, h9, h15⟩ := (phoneRest_iff s).mp h1
      exact ⟨[], one, ds, by simpa using hr, Or.inl rfl, hone, hds, h9, h15⟩
    · cases s with
      | nil => simp at h2
      | cons c r =>
        simp only [Bool.and_eq_true, beq_iff_eq] at h2
        obtain ⟨hc, hr⟩ := h2
        subst hc
        obtain ⟨one, ds, hr2, hone, hds, h9, h15⟩ := (phoneRest_iff r).mp hr
        exact ⟨['+'], one, ds, by simp [hr2], Or.inr rfl, hone, hds, h9, h15⟩
  · rintro ⟨pre, one, ds, rfl, hpre | hpre, hone, hds, h9, h15⟩ <;> subst hpre <;>
      rw [Bool.or_eq_true]
    · exact Or.inl ((phoneRest_iff _).mpr ⟨one, ds, by simp, hone, hds, h9, h15⟩)
    · refine Or.inr ?_
      simp only [List.singleton_append, Bool.and_eq_true, beq_iff_eq]
      exact (phoneRest_iff _).mpr ⟨one, ds, rfl, hone, hds, h9, h15⟩

/-- A string of `emailShape` ends in a letter. -/
theorem emailShape_getLast_isAlpha (s : Str) (h : emailShape s) :
    ∃ c, s.getLast? = some c ∧ c.isAlpha = true := by
  obtain ⟨l, d, t, rfl, -, -, -, -, htlen, htall⟩ := h
  have htne : t ≠ [] := by
    intro h0; subst h0; simp at htlen
  refine ⟨t.getLast htne, ?_, htall _ (List.getLast_mem htne)⟩
  have hs : l ++ '@' :: (d ++ '.' :: t) = (l ++ '@' :: (d ++ ['.'])) ++ t := by simp
  rw [hs]
  exact getLast?_append_of_getLast? _ _ _ (List.getLast?_eq_getLast_of_ne_nil htne)

/-- A string of `phoneShape` ends in a digit. -/
theorem phoneShape_getLast_isDigit (s : Str) (h : phoneShape s) :
    ∃ c, s.getLast? = some c ∧ c.isDigit = true := by
  obtain ⟨pre, one, ds, rfl, -, -, hds, h9, -⟩ := h
  have hne : ds ≠ [] := by
    intro h0; subst h0; simp at h9
  refine ⟨ds.getLast hne, ?_, hds _ (List.getLast_mem hne)⟩
  have hs : pre ++ one ++ ds = (pre ++ one) ++ ds := by simp
  rw [hs]
  exact getLast?_append_of_getLast? _ _ _ (List.getLast?_eq_getLast_of_ne_nil hne)

/-! ## The claims -/

/-- C1 (corrected): the source performs the two remote existence lookups on
**every** submission, whether or not local validation passed (lines 154 and
157 run unconditionally after the local checks); local and conflict errors
are collected into one list, and only the insert is guarded by it: the insert
call is made exactly when the full error list is empty. -/
theorem submit_existence_calls_unconditional :
    ∀ (inp : FormInput) (env : AppEnv),
      (submit inp env).calls.take 2 =
        [RemoteCall.selectUsername inp.username, RemoteCall.selectEmail inp.email] ∧
      ((∃ u : UserRecord, RemoteCall.insert u ∈ (submit inp env).calls) ↔
        (submit inp env).errors = []) := by
  intro inp env
  rw [submit]
  cases h : (submitErrors inp env).isEmpty with
  | true =>
    have h' : submitErrors inp env = [] := List.isEmpty_iff.mp h
    simp only [h', List.isEmpty_nil, if_true, List.cons_append, List.nil_append]
    constructor
    · rfl
    · constructor
      · intro _; trivial
      · intro _
        exact ⟨userData inp env.now, by simp⟩
  | false =>
    have h' : submitErrors inp env ≠ [] := List.isEmpty_eq_false.mp h
    simp only [h, Bool.false_eq_true, if_false]
    refine ⟨rfl, ?_⟩
    constructor
    · rintro ⟨u, hu⟩
      simp at hu
    · intro h0
      exact absurd h0 h'

/-- C1, counterexample to the claim as stated: submitting `inpBad` (an empty
required first-name field, a local validation error) still performs both
remote existence lookups. -/
theorem submit_calls_with_local_error_cex :
    localErrors inpBad ≠ [] ∧
    (submit inpBad envOK).calls =
      [RemoteCall.selectUsername inpBad.username, RemoteCall.selectEmail inpBad.email] := by
  decide

/-- C2 (corrected): `validate_email s` holds iff `s` — or `s` with one
trailing newline removed, which Python's `$` also accepts — has the
`local@domain.tld` shape; the spec's three edge cases hold as stated. -/
theorem validate_email_spec :
    (∀ s : Str, validate_email s = true ↔
      (emailShape s ∨ ∃ s', s = s' ++ ['\n'] ∧ emailShape s')) ∧
    validate_email "a@b.co".toList = true ∧
    validate_email "a@b".toList = false ∧
    validate_email "a.b+c@d.e.com".toList = true :=
  ⟨fun s => match_dollar_iff emailCore emailShape emailCore_iff s, by decide, by decide, by decide⟩

/-- C2, counterexample to the claim as stated: `"a@b.co\n"` does not have the
`local@domain.tld` shape, yet `validate_email` accepts it (Python's `$`
matches just before a newline ending the string). -/
theorem validate_email_trailing_newline_cex :
    validate_email ("a@b.co\n".toList) = true ∧ ¬ emailShape ("a@b.co\n".toList) := by
  refine ⟨by decide, ?_⟩
  intro h
  obtain ⟨c, hc, hca⟩ := emailShape_getLast_isAlpha _ h
  have h1 : ("a@b.co\n".toList).getLast? = some '\n' := by decide
  rw [h1] at hc
  have h2 : c = '\n' := (Option.some.inj hc).symm
  subst h2
  exact absurd hca (by decide)

/-- C3 (confirmed): `validate_password` checks its rules in the fixed order
length ≥ 8, uppercase, lowercase, digit, returns `(false, reason)` for the
first unmet rule — in particular every password shorter than 8 gets the
length reason regardless of content — and `(true, confirmation)` on success;
the four concrete examples behave as the spec states. -/
theorem validate_password_spec :
    (∀ p : Str, p.length < 8 →
      validate_password p = (false, "Password must be at least 8 characters long".toList)) ∧
    (∀ p : Str, 8 ≤ p.length → p.any Char.isUpper = false →
      validate_password p = (false, "Password must contain at least one uppercase letter".toList)) ∧
    (∀ p : Str, 8 ≤ p.length → p.any Char.isUpper = true → p.any Char.isLower = false →
      validate_password p = (false, "Password must contain at least one lowercase letter".toList)) ∧
    (∀ p : Str, 8 ≤ p.length → p.any Char.isUpper = true → p.any Char.isLower = true →
      p.any Char.isDigit = false →
      validate_password p = (false, "Password must contain at least one number".toList)) ∧
    (∀ p : Str, 8 ≤ p.length → p.any Char.isUpper = true → p.any Char.isLower = true →
      p.any Char.isDigit = true →
      validate_password p = (true, "Password is valid".toList)) ∧
    validate_password "Abcdefg1".toList = (true, "Password is valid".toList) ∧
    validate_password "abcdefg1".toList =
      (false, "Password must contain at least one uppercase letter".toList) ∧
    validate_password "ABCDEFG1".toList =
      (false, "Password must contain at least one lowercase letter".toList) ∧
    validate_password "Abcdefgh".toList =
      (false, "Password must contain at least one number".toList) := by
  refine ⟨?_, ?_, ?_, ?_, ?_, by decide, by decide, by decide, by decide⟩
  · intro p h
    simp [validate_password, h]
  · intro p h hU
    simp [validate_password, Nat.not_lt.mpr h, hU]
  · intro p h hU hL
    simp [validate_password, Nat.not_lt.mpr h, hU, hL]
  · intro p h hU hL hD
    simp [validate_password, Nat.not_lt.mpr h, hU, hL, hD]
  · intro p h hU hL hD
    simp [validate_password, Nat.not_lt.mpr h, hU, hL, hD]

/-- C4 (confirmed): each existence check returns true iff its remote query
succeeded and at least one stored record carries the queried username
(respectively email); on a failing remote query both fail open and return
false instead of raising. -/
theorem existence_checks_spec :
    (∀ (store : List UserRecord) (fails : Bool) (name : Str),
      check_username_exists store fails name = true ↔
        (fails = false ∧ ∃ r ∈ store, r.username = name)) ∧
    (∀ (store : List UserRecord) (fails : Bool) (email : Str),
      check_email_exists store fails email = true ↔
        (fails = false ∧ ∃ r ∈ store, r.email = email)) ∧
    (∀ (store : List UserRecord) (name : Str), check_username_exists store true name = false) ∧
    (∀ (store : List UserRecord) (email : Str), check_email_exists store true email = false) := by
  refine ⟨?_, ?_, ?_, ?_⟩
  · intro store fails name
    cases fails with
    | true => simp [check_username_exists]
    | false => simp [check_username_exists, List.length_pos_iff_exists_mem, List.mem_filter]
  · intro store fails email
    cases fails with
    | true => simp [check_email_exists]
    | false => simp [check_email_exists, List.length_pos_iff_exists_mem, List.mem_filter]
  · intro store name; simp [check_username_exists]
  · intro store email; simp [check_email_exists]

/-- C5 (corrected): every record a submission inserts carries
`created_at = env.now`, the client clock's `datetime.now().isoformat()` of
line 180 — the value is supplied by this system, not assigned by the server;
it is set once, and records already in the store are never mutated by a
submission. -/
theorem created_at_client_assigned :
    ∀ (inp : FormInput) (env : AppEnv),
      (∀ u : UserRecord, RemoteCall.insert u ∈ (submit inp env).calls → u.created_at = env.now) ∧
      (submit inp env).store.take env.store.length = env.store ∧
      (∀ r ∈ (submit inp env).store, r ∈ env.store ∨ r.created_at = env.now) := by
  intro inp env
  rw [submit]
  cases h : (submitErrors inp env).isEmpty with
  | false =>
    simp only [h, Bool.false_eq_true, if_false]
    refine ⟨?_, List.take_length _, ?_⟩
    · intro u hu; simp at hu
    · intro r hr; exact Or.inl hr
  | true =>
    simp only [h, if_true]
    rw [register_user]
    cases hf : env.insertFails with
    | true =>
      simp only [hf, if_true]
      refine ⟨?_, List.take_length _, ?_⟩
      · intro u hu
        have hu' : u = userData inp env.now := by simpa using hu
        subst hu'; rfl
      · intro r hr; exact Or.inl hr
    | false =>
      simp only [hf, Bool.false_eq_true, if_false]
      refine ⟨?_, List.take_left _ _, ?_⟩
      · intro u hu
        have hu' : u = userData inp env.now := by simpa using hu
        subst hu'; rfl
      · intro r hr
        rcases List.mem_append.mp hr with hr | hr
        · exact Or.inl hr
        · have hr' : r = userData inp env.now := List.mem_singleton.mp hr
          subst hr'; exact Or.inr rfl

/-- C5, counterexample to the claim as stated: the record handed to the
insert call already contains `created_at`, and its value tracks the client
clock — two submissions that differ only in the client's `now` insert records
with the two different timestamps, so `created_at` is supplied by this
system, not server-assigned. -/
theorem created_at_server_assigned_cex :
    RemoteCall.insert (userData inpOK "T1".toList) ∈ (submit inpOK envT1).calls ∧
    (userData inpOK "T1".toList).created_at = "T1".toList ∧
    RemoteCall.insert (userData inpOK "T2".toList) ∈ (submit inpOK envT2).calls ∧
    (userData inpOK "T2".toList).created_at = "T2".toList ∧
    "T1".toList ≠ "T2".toList := by
  refine ⟨by decide, rfl, by decide, rfl, by decide⟩

/-- C6 (corrected): when the submitted username already exists in the store
**and the username existence lookup succeeds**, the attempt fails with the
conflict message, the store is unchanged and no insert call is made. -/
theorem duplicate_username_rejected :
    ∀ (inp : FormInput) (env : AppEnv),
      env.usernameCheckFails = false →
      (∃ r ∈ env.store, r.username = inp.username) →
      "⚠️ Username already exists".toList ∈ (submit inp env).errors ∧
      (submit inp env).store = env.store ∧
      (∀ u : UserRecord, RemoteCall.insert u ∉ (submit inp env).calls) := by
  intro inp env hf hex
  have hchk : check_username_exists env.store env.usernameCheckFails inp.username = true := by
    rw [hf]
    simpa [check_username_exists, List.length_pos_iff_exists_mem, List.mem_filter]
      using hex
  have hmem : ("⚠️ Username already exists".toList) ∈ submitErrors inp env := by
    unfold submitErrors
    rw [hchk]
    simp
  have hne : (submitErrors inp env).isEmpty = false := by
    rw [List.isEmpty_eq_false]
    intro h0
    rw [h0] at hmem
    simp at hmem
  rw [submit]
  simp only [hne, Bool.false_eq_true, if_false]
  refine ⟨hmem, trivial, ?_⟩
  intro u hu
  simp at hu

/-- C6, witness: the store holding `recBob`, a submission under the taken
username `"bob"` with the lookup healthy is rejected with the conflict
message, no store change and no insert call. -/
theorem duplicate_username_rejected_witness :
    "⚠️ Username already exists".toList ∈ (submit inpBob envBob).errors ∧
    (submit inpBob envBob).store = envBob.store ∧
    (∀ u : UserRecord, RemoteCall.insert u ∉ (submit inpBob envBob).calls) :=
  duplicate_username_rejected inpBob envBob rfl ⟨recBob, by decide, by decide⟩

/-- C6, counterexample to the claim as stated: with the username `"bob"`
already in the store but the existence select raising, the check fails open
(src/main.py lines 59–60), so the attempt raises no conflict, performs the
insert and appends the duplicate to the store. -/
theorem duplicate_username_failopen_cex :
    (∃ r ∈ envBobCheckDown.store, r.username = inpBob.username) ∧
    (submit inpBob envBobCheckDown).errors = [] ∧
    (submit inpBob envBobCheckDown).store =
      envBobCheckDown.store ++ [userData inpBob envBobCheckDown.now] ∧
    RemoteCall.insert (userData inpBob envBobCheckDown.now) ∈
      (submit inpBob envBobCheckDown).calls := by
  refine ⟨⟨recBob, by decide, by decide⟩, by decide, by decide, by decide⟩

/-- C7 (confirmed): `register_user` always returns a `(success, message)`
pair — it catches any remote failure rather than raising — and: on a failing
insert it returns false with `"Error: "` plus the failure's text and leaves
the store alone (one attempt, no retry); on success it returns true with the
confirmation message and exactly the one new row appended. -/
theorem register_user_spec :
    ∀ (env : AppEnv) (u : UserRecord),
      (env.insertFails = true ∧
        register_user env u = ((false, "Error: ".toList ++ env.insertError), env.store)) ∨
      (env.insertFails = false ∧
        register_user env u = ((true, "Registration successful!".toList), env.store ++ [u])) := by
  intro env u
  cases h : env.insertFails with
  | true => exact Or.inl ⟨rfl, by simp [register_user, h]⟩
  | false => exact Or.inr ⟨rfl, by simp [register_user, h]⟩

/-- C8 (corrected): `validate_phone s` holds iff `s` — or `s` with one
trailing newline removed, which Python's `$` also accepts — is an optional
leading `+`, an optional literal `1`, then 9 to 15 digits. -/
theorem validate_phone_spec :
    ∀ s : Str, validate_phone s = true ↔
      (phoneShape s ∨ ∃ s', s = s' ++ ['\n'] ∧ phoneShape s') :=
  fun s => match_dollar_iff phoneCore phoneShape phoneCore_iff s

/-- C8, counterexample to the claim as stated: `"+123456789\n"` is not an
optional `+`, optional `1` and 9–15 digits (it ends in a newline), yet
`validate_phone` accepts it. -/
theorem validate_phone_trailing_newline_cex :
    validate_phone ("+123456789\n".toList) = true ∧ ¬ phoneShape ("+123456789\n".toList) := by
  refine ⟨by decide, ?_⟩
  intro h
  obtain ⟨c, hc, hcd⟩ := phoneShape_getLast_isDigit _ h
  have h1 : ("+123456789\n".toList).getLast? = some '\n' := by decide
  rw [h1] at hc
  have h2 : c = '\n' := (Option.some.inj hc).symm
  subst h2
  exact absurd hcd (by decide)

/-- C9 (confirmed): on an empty store with a healthy remote, the listing
select returns the empty sequence as a non-error result and the tab renders
the "no users yet" info box; the error rendering appears exactly when the
remote fetch fails. -/
theorem list_users_empty_spec :
    (list_users [] none = Except.ok [] ∧ view_users [] none = ViewOutput.noUsers) ∧
    (∀ (table : List (Nat × UserRecord)) (failure : Option Str),
      (∃ m, view_users table failure = ViewOutput.fetchError m) ↔ failure ≠ none) := by
  refine ⟨⟨rfl, rfl⟩, ?_⟩
  intro table failure
  cases failure with
  | none =>
    simp only [ne_eq, not_true_eq_false, iff_false, not_exists]
    intro m hm
    rw [view_users] at hm
    simp only [list_users] at hm
    split at hm <;> simp_all
  | some e =>
    simp only [ne_eq, reduceCtorEq, not_false_eq_true, iff_true]
    exact ⟨"Error fetching users: ".toList ++ e, rfl⟩

/-- C10 (confirmed): every record a submission inserts carries `gender = None`
when the selectbox was left at `"Select"`, and the chosen string verbatim
otherwise — including `"Prefer not to say"`, which the form offers beyond the
spec's Male/Female/Other enum (see the witness). -/
theorem gender_select_none_spec :
    ∀ (inp : FormInput) (env : AppEnv) (u : UserRecord),
      RemoteCall.insert u ∈ (submit inp env).calls →
      u.gender = (if inp.gender = "Select".toList then none else some inp.gender) := by
  intro inp env u hu
  rw [submit] at hu
  cases h : (submitErrors inp env).isEmpty with
  | false =>
    rw [h] at hu
    simp at hu
  | true =>
    rw [h] at hu
    simp only [if_true] at hu
    have hu' : u = userData inp env.now := by simpa using hu
    subst hu'
    rfl

/-- C10, witness: a valid submission with the selectbox on
`"Prefer not to say"` stores that string verbatim in the inserted record. -/
theorem gender_select_none_spec_witness :
    (userData inpPrefer envOK.now).gender =
      (if inpPrefer.gender = "Select".toList then none else some inpPrefer.gender) :=
  gender_select_none_spec inpPrefer envOK (userData inpPrefer envOK.now) (by decide)
